import Mathlib

/-!
# Verification of the QR Static history store and export composer

Shallow embedding of the state-bearing parts of `src/src/App.tsx`:
the bounded recent-items history (`addToHistory`, `clearHistory`, the
localStorage load/save effects) and the canvas export routine
(`downloadQR`, geometry and the download button gate).

UI layout, the external QR symbol renderer and the browser built-ins
(canvas drawing, `JSON.stringify`/`JSON.parse`, `localStorage`) are
external collaborators; nondeterministic environment readings made by
the code (`Math.random()` identifiers, `Date.now()` clock readings) are
passed in as explicit parameters.
-/

namespace QRStatic

/-- Whitespace as recognized by the host language string trim
(`String.prototype.trim`): ASCII whitespace plus no-break space and the
byte-order mark, the characters relevant to this repository. -/
def isJsSpace (ch : Char) : Bool :=
  ch == ' ' || ch == '\t' || ch == '\n' || ch == '\r' ||
  ch == '\x0b' || ch == '\x0c' || ch == '\u00A0' || ch == '\uFEFF'

/-- `url.trim()` of the source: strips leading and trailing whitespace. -/
def jsTrim (s : String) : String :=
  String.mk (((s.data.dropWhile isJsSpace).reverse.dropWhile isJsSpace).reverse)

/-- One history entry, mirroring the `QRHistoryItem` interface of
`src/src/App.tsx` (fields `id`, `url`, `fgColor`, `bgColor`, `timestamp`). -/
structure QRHistoryItem where
  id : String
  url : String
  fgColor : String
  bgColor : String
  timestamp : Nat
deriving Repr, DecidableEq

/-- One call to `addToHistory`: the component state the closure reads
(the raw `url` text and the two colors) together with the environment
readings made inside the call: the identifier produced by
`Math.random().toString(36).substr(2, 9)` and the `Date.now()` reading. -/
structure AddCall where
  url : String
  fgColor : String
  bgColor : String
  id : String
  timestamp : Nat
deriving Repr, DecidableEq

/-- The entry `addToHistory` constructs (`newItem` in the source,
App.tsx lines 63-69): the address is stored trimmed, the other fields
are taken as read. -/
def mkItem (c : AddCall) : QRHistoryItem :=
  { id := c.id, url := jsTrim c.url, fgColor := c.fgColor,
    bgColor := c.bgColor, timestamp := c.timestamp }

/-- `addToHistory` from App.tsx lines 60-75, as a function from the
current history list to the updated one.  Guard:
`if (!url || url.trim() === '') return;`.  Dedup and prepend:
`if (history.length === 0 || history[0].url !== newItem.url)`
then `[newItem, ...prev].slice(0, 10)`, else no state update. -/
def addToHistory (history : List QRHistoryItem) (c : AddCall) :
    List QRHistoryItem :=
  if c.url = "" ∨ jsTrim c.url = "" then history
  else
    let newItem := mkItem c
    match history with
    | [] => (newItem :: history).take 10
    | e :: _ =>
        if e.url ≠ newItem.url then (newItem :: history).take 10
        else history

/-- A sequence of `addToHistory` calls applied in order, starting from
the empty history the component is created with. -/
def runAdds (calls : List AddCall) : List QRHistoryItem :=
  calls.foldl addToHistory []

/-- `clearHistory` from App.tsx lines 132-134: `setHistory([])`. -/
def clearHistory (_history : List QRHistoryItem) : List QRHistoryItem := []

/-! ## Basic lemmas about `addToHistory` -/

/-- The trim of the empty string is empty. -/
lemma jsTrim_empty : jsTrim "" = "" := rfl

/-- The guard of `addToHistory` reduces to a single condition: the raw
address trims to the empty string (an empty raw address trims to empty). -/
lemma addToHistory_guard (c : AddCall) (hnb : jsTrim c.url ≠ "") :
    ¬(c.url = "" ∨ jsTrim c.url = "") := by
  rintro (h | h)
  · rw [h, jsTrim_empty] at hnb; exact hnb rfl
  · exact hnb h

/-- C3 helper: a blank (empty-after-trim) address makes `addToHistory`
a no-op. -/
lemma addToHistory_of_blank (h : List QRHistoryItem) (c : AddCall)
    (hblank : jsTrim c.url = "") : addToHistory h c = h := by
  simp [addToHistory, hblank]

/-- C2 helper: if the head entry's stored address equals the trimmed new
address, `addToHistory` is a no-op. -/
lemma addToHistory_head_eq (e : QRHistoryItem) (rest : List QRHistoryItem)
    (c : AddCall) (hhead : e.url = jsTrim c.url) :
    addToHistory (e :: rest) c = e :: rest := by
  by_cases hb : c.url = "" ∨ jsTrim c.url = ""
  · simp [addToHistory, hb]
  · simp [addToHistory, hb, mkItem, hhead]

/-- On an empty history, a non-blank add produces the singleton of the
new entry. -/
lemma addToHistory_nil (c : AddCall) (hnb : jsTrim c.url ≠ "") :
    addToHistory [] c = [mkItem c] := by
  simp [addToHistory, addToHistory_guard c hnb]

/-- On a nonempty history whose head address differs from the trimmed
new address, a non-blank add prepends the new entry and truncates. -/
lemma addToHistory_cons_ne (e : QRHistoryItem) (rest : List QRHistoryItem)
    (c : AddCall) (hnb : jsTrim c.url ≠ "") (hne : e.url ≠ jsTrim c.url) :
    addToHistory (e :: rest) c = (mkItem c :: e :: rest).take 10 := by
  simp [addToHistory, addToHistory_guard c hnb, mkItem, hne]

/-- After any non-blank add the history is nonempty and its head stores
the trimmed address just added. -/
lemma addToHistory_head (h : List QRHistoryItem) (c : AddCall)
    (hnb : jsTrim c.url ≠ "") :
    ∃ e rest, addToHistory h c = e :: rest ∧ e.url = jsTrim c.url := by
  cases h with
  | nil => exact ⟨mkItem c, [], addToHistory_nil c hnb, rfl⟩
  | cons e t =>
    by_cases he : e.url = jsTrim c.url
    · exact ⟨e, t, addToHistory_head_eq e t c he, he⟩
    · exact ⟨mkItem c, (e :: t).take 9, by
        rw [addToHistory_cons_ne e t c hnb he]; rfl, rfl⟩

/-- `runAdds` over an appended final call applies `addToHistory` last. -/
lemma runAdds_append (calls : List AddCall) (c : AddCall) :
    runAdds (calls ++ [c]) = addToHistory (runAdds calls) c := by
  simp [runAdds, List.foldl_append]

/-! ## Claim theorems: blank addresses and adjacent duplicates -/

/-- C3: calling the add operation with an address that is empty after
trimming (in particular the empty string or a whitespace-only string)
leaves the history exactly as it was; no error is raised, the guard
returns early. -/
theorem add_blank_is_noop (h : List QRHistoryItem) (c : AddCall)
    (hblank : jsTrim c.url = "") : addToHistory h c = h :=
  addToHistory_of_blank h c hblank

/-- Witness for C3: adding the empty address and a whitespace-only
address to a one-entry history leaves it unchanged. -/
theorem add_blank_is_noop_witness :
    addToHistory [⟨"i0", "x", "#000000", "#ffffff", 0⟩]
        ⟨"", "#000000", "#ffffff", "i1", 1⟩ =
      [⟨"i0", "x", "#000000", "#ffffff", 0⟩] ∧
    addToHistory [⟨"i0", "x", "#000000", "#ffffff", 0⟩]
        ⟨"   ", "#000000", "#ffffff", "i2", 2⟩ =
      [⟨"i0", "x", "#000000", "#ffffff", 0⟩] :=
  ⟨add_blank_is_noop _ _ (by decide), add_blank_is_noop _ _ (by decide)⟩

/-- C2: when the head entry's stored address equals the trimmed address
being added, the add operation is a no-op: the sequence is unchanged (no
prepend, no eviction, no timestamp bump); and two consecutive adds of
the same raw address, starting from an empty history, leave a history of
length 1, not 2. -/
theorem add_head_match_is_noop (e : QRHistoryItem)
    (rest : List QRHistoryItem) (c c' : AddCall)
    (hhead : e.url = jsTrim c.url) (hsame : c'.url = c.url)
    (hnb : jsTrim c.url ≠ "") :
    addToHistory (e :: rest) c = e :: rest ∧
    (runAdds [c, c']).length = 1 := by
  refine ⟨addToHistory_head_eq e rest c hhead, ?_⟩
  have h1 : runAdds [c, c'] = addToHistory (addToHistory [] c) c' := rfl
  rw [h1, addToHistory_nil c hnb,
    addToHistory_head_eq (mkItem c) [] c' (by simp [mkItem, hsame])]
  rfl

/-- Witness for C2: head entry stores "x" and the raw address "x" is
added twice. -/
theorem add_head_match_is_noop_witness :
    addToHistory [⟨"i0", "x", "#000000", "#ffffff", 0⟩]
        ⟨"x", "#000000", "#ffffff", "i1", 1⟩ =
      [⟨"i0", "x", "#000000", "#ffffff", 0⟩] ∧
    (runAdds [⟨"x", "#000000", "#ffffff", "i1", 1⟩,
              ⟨"x", "#000000", "#ffffff", "i2", 2⟩]).length = 1 :=
  add_head_match_is_noop ⟨"i0", "x", "#000000", "#ffffff", 0⟩ []
    ⟨"x", "#000000", "#ffffff", "i1", 1⟩
    ⟨"x", "#000000", "#ffffff", "i2", 2⟩
    (by decide) rfl (by decide)

/-- C10: adjacent-duplicate suppression works up to trimming: when two
raw addresses trim to the same non-blank string, an add of the second
right after an add of the first changes nothing, and from the empty
history the pair of adds yields a single entry. -/
theorem add_trim_equal_suppressed (h : List QRHistoryItem)
    (ca cb : AddCall) (heq : jsTrim ca.url = jsTrim cb.url)
    (hnb : jsTrim ca.url ≠ "") :
    addToHistory (addToHistory h ca) cb = addToHistory h ca ∧
    (runAdds [ca, cb]).length = 1 := by
  obtain ⟨e, rest, hrun, hurl⟩ := addToHistory_head h ca hnb
  constructor
  · rw [hrun]
    exact addToHistory_head_eq e rest cb (by rw [hurl, heq])
  · have h1 : runAdds [ca, cb] = addToHistory (addToHistory [] ca) cb := rfl
    rw [h1, addToHistory_nil ca hnb,
      addToHistory_head_eq (mkItem ca) [] cb (by simpa [mkItem] using heq)]
    rfl

/-- Witness for C10: add "x" then add "  x  " (different raw strings,
same trim). -/
theorem add_trim_equal_suppressed_witness :
    addToHistory
        (addToHistory [] ⟨"x", "#000000", "#ffffff", "i1", 1⟩)
        ⟨"  x  ", "#000000", "#ffffff", "i2", 2⟩ =
      addToHistory [] ⟨"x", "#000000", "#ffffff", "i1", 1⟩ ∧
    (runAdds [⟨"x", "#000000", "#ffffff", "i1", 1⟩,
              ⟨"  x  ", "#000000", "#ffffff", "i2", 2⟩]).length = 1 :=
  add_trim_equal_suppressed [] ⟨"x", "#000000", "#ffffff", "i1", 1⟩
    ⟨"  x  ", "#000000", "#ffffff", "i2", 2⟩ (by decide) (by decide)

/-! ## C1: distinct non-blank adds build the truncated reversed list -/

/-- Characterization of a run of adds whose trimmed addresses are
pairwise distinct and non-blank: the resulting history is the reversed
list of constructed entries, truncated to the 10 most recent. -/
lemma runAdds_eq_take (calls : List AddCall)
    (hnb : ∀ c ∈ calls, jsTrim c.url ≠ "")
    (hdist : (calls.map fun c => jsTrim c.url).Pairwise (fun a b => a ≠ b)) :
    runAdds calls = (calls.reverse.map mkItem).take 10 := by
  induction calls using List.reverseRecOn with
  | nil => rfl
  | append_singleton calls c ih =>
    have hnb' : ∀ d ∈ calls, jsTrim d.url ≠ "" := fun d hd =>
      hnb d (List.mem_append_left _ hd)
    have hc : jsTrim c.url ≠ "" := hnb c (List.mem_append_right _ (by simp))
    rw [List.map_append, List.pairwise_append] at hdist
    obtain ⟨hd1, _, hsep⟩ := hdist
    have hsep' : ∀ d ∈ calls, jsTrim d.url ≠ jsTrim c.url := by
      intro d hd
      exact hsep (jsTrim d.url) (List.mem_map_of_mem _ hd) (jsTrim c.url)
        (by simp)
    rw [runAdds_append, ih hnb' hd1]
    rcases hR : (calls.reverse.map mkItem).take 10 with _ | ⟨e, t⟩
    · have hL : calls.reverse.map mkItem = [] := by
        rcases List.take_eq_nil_iff.mp hR with h10 | hL
        · exact absurd h10 (by norm_num)
        · exact hL
      rw [addToHistory_nil c hc]
      simp only [List.reverse_append, List.reverse_singleton,
        List.singleton_append, List.map_cons, hL]
      rfl
    · have he_mem : e ∈ calls.reverse.map mkItem := by
        have : e ∈ (calls.reverse.map mkItem).take 10 := by
          rw [hR]; exact List.mem_cons_self e t
        exact List.take_subset 10 _ this
      obtain ⟨c₀, hc₀, hec₀⟩ := List.mem_map.mp he_mem
      have hc₀' : c₀ ∈ calls := List.mem_reverse.mp hc₀
      have hne : e.url ≠ jsTrim c.url := by
        rw [← hec₀]
        exact hsep' c₀ hc₀'
      rw [addToHistory_cons_ne e t c hc hne, ← hR]
      simp only [List.reverse_append, List.reverse_singleton,
        List.singleton_append, List.map_cons]
      rw [List.take_succ_cons, List.take_succ_cons, List.take_take]
      norm_num

/-- C1: from the empty history, a sequence of add calls whose trimmed
addresses are pairwise distinct and non-blank yields a history equal to
the reversed entry list truncated to 10 — most-recent-first, with the
oldest entries evicted past capacity — hence of length
`min(calls, 10)`. -/
theorem add_distinct_spec (calls : List AddCall)
    (hnb : ∀ c ∈ calls, jsTrim c.url ≠ "")
    (hdist : (calls.map fun c => jsTrim c.url).Pairwise (fun a b => a ≠ b)) :
    runAdds calls = (calls.reverse.map mkItem).take 10 ∧
    (runAdds calls).length = min calls.length 10 := by
  refine ⟨runAdds_eq_take calls hnb hdist, ?_⟩
  rw [runAdds_eq_take calls hnb hdist]
  simp [Nat.min_comm]

/-- Witness for C1: three adds with distinct addresses produce the three
entries most-recent-first. -/
theorem add_distinct_spec_witness :
    runAdds [⟨"a", "#000000", "#ffffff", "i1", 0⟩,
             ⟨"b", "#000000", "#ffffff", "i2", 1⟩,
             ⟨"c", "#000000", "#ffffff", "i3", 2⟩] =
      (([⟨"a", "#000000", "#ffffff", "i1", 0⟩,
         ⟨"b", "#000000", "#ffffff", "i2", 1⟩,
         ⟨"c", "#000000", "#ffffff", "i3", 2⟩] :
           List AddCall).reverse.map mkItem).take 10 ∧
    (runAdds [⟨"a", "#000000", "#ffffff", "i1", 0⟩,
              ⟨"b", "#000000", "#ffffff", "i2", 1⟩,
              ⟨"c", "#000000", "#ffffff", "i3", 2⟩]).length =
      min ([⟨"a", "#000000", "#ffffff", "i1", 0⟩,
            ⟨"b", "#000000", "#ffffff", "i2", 1⟩,
            ⟨"c", "#000000", "#ffffff", "i3", 2⟩] :
             List AddCall).length 10 :=
  add_distinct_spec _ (by decide) (by decide)

/-! ## C8: identifiers of history entries -/

/-- One add step yields a sublist of the new entry consed on the old
history: the step either keeps the history, or prepends the one new
entry and truncates. -/
lemma addToHistory_sublist (h : List QRHistoryItem) (c : AddCall) :
    List.Sublist (addToHistory h c) (mkItem c :: h) := by
  unfold addToHistory
  split
  · exact List.sublist_cons_self _ _
  · split
    · exact List.take_sublist _ _
    · dsimp only
      split
      · exact List.take_sublist _ _
      · exact List.sublist_cons_self _ _

/-- A run of adds is a sublist of the reversed list of all constructed
entries: every history entry originates from a distinct call. -/
lemma runAdds_sublist (calls : List AddCall) :
    List.Sublist (runAdds calls) (calls.reverse.map mkItem) := by
  induction calls using List.reverseRecOn with
  | nil => exact List.Sublist.refl _
  | append_singleton calls c ih =>
    rw [runAdds_append]
    have h1 := addToHistory_sublist (runAdds calls) c
    have h2 : List.Sublist (mkItem c :: runAdds calls)
        (mkItem c :: calls.reverse.map mkItem) := ih.cons₂ _
    simpa using h1.trans h2

/-- C8 counterexample: the identifier comes from the reading of
`Math.random().toString(36).substr(2, 9)` made inside the call, and the
generator does not preclude repeats; when two calls read the same
string, the resulting reachable history holds two entries with equal
ids, so ids are not pairwise distinct in every reachable state. -/
theorem entry_ids_counterexample :
    ((runAdds [⟨"a", "#000000", "#ffffff", "q1w2e3r4t", 0⟩,
               ⟨"b", "#000000", "#ffffff", "q1w2e3r4t", 1⟩]).map
        QRHistoryItem.id) = ["q1w2e3r4t", "q1w2e3r4t"] ∧
    ¬ ((runAdds [⟨"a", "#000000", "#ffffff", "q1w2e3r4t", 0⟩,
                 ⟨"b", "#000000", "#ffffff", "q1w2e3r4t", 1⟩]).map
        QRHistoryItem.id).Pairwise (fun a b => a ≠ b) := by
  refine ⟨by decide, ?_⟩
  intro hp
  have : ("q1w2e3r4t" : String) ≠ "q1w2e3r4t" := by
    have h0 : ((runAdds [⟨"a", "#000000", "#ffffff", "q1w2e3r4t", 0⟩,
                 ⟨"b", "#000000", "#ffffff", "q1w2e3r4t", 1⟩]).map
        QRHistoryItem.id) = ["q1w2e3r4t", "q1w2e3r4t"] := by decide
    rw [h0] at hp
    exact List.rel_of_pairwise_cons hp (List.mem_singleton_self _)
  exact this rfl

/-- C8 amended: whenever the identifier readings across a sequence of
add calls are pairwise distinct, all entries of the resulting history
carry pairwise-distinct ids. -/
theorem entry_ids_distinct (calls : List AddCall)
    (hids : (calls.map AddCall.id).Pairwise (fun a b => a ≠ b)) :
    ((runAdds calls).map QRHistoryItem.id).Pairwise (fun a b => a ≠ b) := by
  have hsub : List.Sublist ((runAdds calls).map QRHistoryItem.id)
      ((calls.reverse.map mkItem).map QRHistoryItem.id) :=
    (runAdds_sublist calls).map _
  have heq : (calls.reverse.map mkItem).map QRHistoryItem.id =
      (calls.map AddCall.id).reverse := by
    simp [List.map_reverse, Function.comp_def, mkItem]
  rw [heq] at hsub
  exact List.Pairwise.sublist hsub
    (List.pairwise_reverse.mpr (hids.imp fun h => Ne.symm h))

/-- Witness for the amended C8: two adds with distinct identifier
readings give pairwise-distinct ids. -/
theorem entry_ids_distinct_witness :
    ((runAdds [⟨"a", "#000000", "#ffffff", "i1", 0⟩,
               ⟨"b", "#000000", "#ffffff", "i2", 1⟩]).map
        QRHistoryItem.id).Pairwise (fun a b => a ≠ b) :=
  entry_ids_distinct _ (by simp)

/-! ## Export composer: download gate (C4) and geometry (C7) -/

/-- Observable outcome of a click on the download button: whether the
composed PNG download was triggered, whether the export canvas was
composed (background filled and symbol drawn), and the resulting
history. -/
structure ExportResult where
  downloadTriggered : Bool
  canvasComposed : Bool
  history : List QRHistoryItem
deriving Repr, DecidableEq

/-- `downloadQR` from App.tsx lines 77-120: when the ref holds the
rendered symbol canvas (`qrRef.current?.querySelector('canvas')`) and a
2d context is obtained, the routine composes the padded rounded
background plus the symbol, triggers the file download, and then calls
`addToHistory`; when the canvas or the context is missing it does
nothing.  The address itself is not checked here. -/
def downloadQR (canvasFound ctxFound : Bool) (c : AddCall)
    (h : List QRHistoryItem) : ExportResult :=
  if canvasFound then
    if ctxFound then
      { downloadTriggered := true, canvasComposed := true,
        history := addToHistory h c }
    else
      { downloadTriggered := false, canvasComposed := false, history := h }
  else
    { downloadTriggered := false, canvasComposed := false, history := h }

/-- The download button of App.tsx lines 330-333: `disabled={!url}` —
the click reaches `downloadQR` unless the raw address is exactly the
empty string (only the empty string is falsy among strings). -/
def clickDownload (canvasFound ctxFound : Bool) (c : AddCall)
    (h : List QRHistoryItem) : ExportResult :=
  if c.url = "" then
    { downloadTriggered := false, canvasComposed := false, history := h }
  else downloadQR canvasFound ctxFound c h

/-- C4 counterexample: a whitespace-only address is blank but not the
empty string, so the button is enabled; clicking it does trigger the
download and does compose the canvas — the export is not disabled as a
whole for every empty-or-blank address.  Only the history-add part is a
no-op. -/
theorem export_blank_counterexample :
    jsTrim "   " = "" ∧ ("   " : String) ≠ "" ∧
    (clickDownload true true ⟨"   ", "#000000", "#ffffff", "i1", 1⟩
        []).downloadTriggered = true ∧
    (clickDownload true true ⟨"   ", "#000000", "#ffffff", "i1", 1⟩
        []).canvasComposed = true ∧
    (clickDownload true true ⟨"   ", "#000000", "#ffffff", "i1", 1⟩
        []).history = [] := by decide

/-- C4 amended: the export is silently disabled as a whole (no download,
no canvas composition, no history change) exactly when the raw address
is the empty string; for any address that is blank after trimming the
history is never changed by a click, but a non-empty whitespace-only
address still triggers the composition and download. -/
theorem export_empty_disabled (canvasFound ctxFound : Bool) (c : AddCall)
    (h : List QRHistoryItem) (hblank : jsTrim c.url = "") :
    (c.url = "" → clickDownload canvasFound ctxFound c h =
      { downloadTriggered := false, canvasComposed := false,
        history := h }) ∧
    (clickDownload canvasFound ctxFound c h).history = h := by
  constructor
  · intro he
    simp [clickDownload, he]
  · by_cases he : c.url = ""
    · simp [clickDownload, he]
    · cases canvasFound <;> cases ctxFound <;>
        simp [clickDownload, he, downloadQR,
          addToHistory_of_blank h c hblank]

/-- Witness for the amended C4 at the empty address. -/
theorem export_empty_disabled_witness :
    (("" : String) = "" → clickDownload true true
        ⟨"", "#000000", "#ffffff", "i1", 1⟩
        [⟨"i0", "x", "#000000", "#ffffff", 0⟩] =
      { downloadTriggered := false, canvasComposed := false,
        history := [⟨"i0", "x", "#000000", "#ffffff", 0⟩] }) ∧
    (clickDownload true true ⟨"", "#000000", "#ffffff", "i1", 1⟩
        [⟨"i0", "x", "#000000", "#ffffff", 0⟩]).history =
      [⟨"i0", "x", "#000000", "#ffffff", 0⟩] :=
  export_empty_disabled true true ⟨"", "#000000", "#ffffff", "i1", 1⟩
    [⟨"i0", "x", "#000000", "#ffffff", 0⟩] (by decide)

/-- The geometry `downloadQR` computes (App.tsx lines 81-108), with the
number arithmetic of the source carried out exactly over the rationals:
`padding = Math.max(20, size * 0.1)`, `totalSize = size + padding * 2`
(both canvas sides are set to `totalSize`), corner radius
`totalSize * 0.1`, and the symbol drawn by
`ctx.drawImage(qrCanvas, padding, padding, size, size)`. -/
structure ComposeGeometry where
  padding : ℚ
  totalSize : ℚ
  radius : ℚ
  drawX : ℚ
  drawY : ℚ
  drawW : ℚ
  drawH : ℚ
deriving Repr, DecidableEq

/-- The geometry computation of `downloadQR`, as a function of the
requested symbol size (the slider keeps it in 128-512). -/
def composeGeometry (size : ℚ) : ComposeGeometry :=
  let padding := max 20 (size * (1 / 10))
  let totalSize := size + padding * 2
  { padding := padding, totalSize := totalSize,
    radius := totalSize * (1 / 10),
    drawX := padding, drawY := padding, drawW := size, drawH := size }

/-- C7: over the whole valid size range the composer computes
`padding = max(20, size * 0.1)` and a square canvas side
`totalSize = size + 2 * padding`, draws the symbol at offset
`(padding, padding)` scaled to exactly `size × size`, and the exact
values are `padding = 20`, `total = 168` at size 128 and
`padding = 25.6`, `total = 307.2` at size 256. -/
theorem compose_geometry_spec (size : ℚ) (h1 : 128 ≤ size)
    (h2 : size ≤ 512) :
    ((composeGeometry size).padding = max 20 (size * (1 / 10)) ∧
     (composeGeometry size).totalSize =
       size + 2 * (composeGeometry size).padding ∧
     (composeGeometry size).drawX = (composeGeometry size).padding ∧
     (composeGeometry size).drawY = (composeGeometry size).padding ∧
     (composeGeometry size).drawW = size ∧
     (composeGeometry size).drawH = size) ∧
    ((composeGeometry 128).padding = 20 ∧
     (composeGeometry 128).totalSize = 168) ∧
    ((composeGeometry 256).padding = 128 / 5 ∧
     (composeGeometry 256).totalSize = 1536 / 5) := by
  refine ⟨⟨rfl, by simp [composeGeometry]; ring, rfl, rfl, rfl, rfl⟩,
    ⟨?_, ?_⟩, ⟨?_, ?_⟩⟩ <;>
    · simp [composeGeometry, max_def]
      norm_num

/-- Witness for C7 at size 256. -/
theorem compose_geometry_spec_witness :
    ((composeGeometry 256).padding = max 20 ((256 : ℚ) * (1 / 10)) ∧
     (composeGeometry 256).totalSize =
       256 + 2 * (composeGeometry 256).padding ∧
     (composeGeometry 256).drawX = (composeGeometry 256).padding ∧
     (composeGeometry 256).drawY = (composeGeometry 256).padding ∧
     (composeGeometry 256).drawW = 256 ∧
     (composeGeometry 256).drawH = 256) ∧
    ((composeGeometry 128).padding = 20 ∧
     (composeGeometry 128).totalSize = 168) ∧
    ((composeGeometry 256).padding = 128 / 5 ∧
     (composeGeometry 256).totalSize = 1536 / 5) :=
  compose_geometry_spec 256 (by norm_num) (by norm_num)

/-! ## Persistence: the qr_history blob (C5, C6, C9)

The save effect (App.tsx lines 55-58) writes
`JSON.stringify(history)` under the key `qr_history`; the load effect
(lines 44-53) reads it, and on success installs `JSON.parse(saved)`
verbatim via `setHistory`, with no shape validation; a parse failure is
caught and only logged.  The browser's `JSON.stringify` and `JSON.parse`
are external collaborators: they transport a JSON value to a string and
back unchanged, so the blob is modelled at the JSON-value level.  The
numbers occurring in this schema are `Date.now()` readings, embedded as
naturals. -/

/-- JSON values as stored under the qr_history key. -/
inductive JsVal where
  | str : String → JsVal
  | num : Nat → JsVal
  | bool : Bool → JsVal
  | null : JsVal
  | arr : List JsVal → JsVal
  | obj : List (String × JsVal) → JsVal

/-- The JSON object a `QRHistoryItem` serializes to: fields `id`, `url`,
`fgColor`, `bgColor`, `timestamp`, per the persisted-state layout. -/
def encodeItem (e : QRHistoryItem) : JsVal :=
  .obj [("id", .str e.id), ("url", .str e.url),
        ("fgColor", .str e.fgColor), ("bgColor", .str e.bgColor),
        ("timestamp", .num e.timestamp)]

/-- What the save effect persists: the JSON array of the serialized
entries, most-recent-first. -/
def encodeHistory (h : List QRHistoryItem) : JsVal :=
  .arr (h.map encodeItem)

/-- JS property lookup on a JSON object's field list (first match). -/
def getField : List (String × JsVal) → String → Option JsVal
  | [], _ => none
  | (k, v) :: rest, key => if k = key then some v else getField rest key

/-- Reading a JSON value back as a history entry, following the
persisted-state layout (string fields `id`, `url`, `fgColor`,
`bgColor`, numeric `timestamp`). -/
def decodeItem : JsVal → Option QRHistoryItem
  | .obj fields =>
    match getField fields "id", getField fields "url",
        getField fields "fgColor", getField fields "bgColor",
        getField fields "timestamp" with
    | some (.str i), some (.str u), some (.str f), some (.str b),
        some (.num t) => some ⟨i, u, f, b, t⟩
    | _, _, _, _, _ => none
  | _ => none

/-- Reading a list of JSON values back as history entries; any
non-conforming element makes the whole read fail. -/
def decodeItems : List JsVal → Option (List QRHistoryItem)
  | [] => some []
  | x :: xs =>
    match decodeItem x, decodeItems xs with
    | some e, some es => some (e :: es)
    | _, _ => none

/-- Reading a JSON value back as a full history sequence. -/
def decodeHistory : JsVal → Option (List QRHistoryItem)
  | .arr xs => decodeItems xs
  | _ => none

/-- What the load effect finds under the qr_history key: nothing
(`getItem` returns null), a string `JSON.parse` throws on, or a string
that parses to a JSON value. -/
inductive StoredBlob where
  | absent : StoredBlob
  | corrupt : StoredBlob
  | parsed : JsVal → StoredBlob

/-- The history state installed by the load effect, as a JSON value: the
component starts from the empty array; when `getItem` returns null,
`setHistory` is never called; when `JSON.parse` throws, the error is
caught and only logged, the state kept; when parsing succeeds the parsed
value is installed verbatim, with no validation. -/
def hydrate : StoredBlob → JsVal
  | .absent => .arr []
  | .corrupt => .arr []
  | .parsed j => j

/-- Serialization round-trip on entries. -/
lemma decodeItem_encodeItem (e : QRHistoryItem) :
    decodeItem (encodeItem e) = some e := rfl

/-- Serialization round-trip on entry lists. -/
lemma decodeItems_map_encodeItem (l : List QRHistoryItem) :
    decodeItems (l.map encodeItem) = some l := by
  induction l with
  | nil => rfl
  | cons e t ih => simp [decodeItems, decodeItem_encodeItem, ih]

/-- Serialization round-trip on histories. -/
lemma decodeHistory_encodeHistory (h : List QRHistoryItem) :
    decodeHistory (encodeHistory h) = some h := by
  simp [decodeHistory, encodeHistory, decodeItems_map_encodeItem]

/-- C5: persist-then-load is the identity on valid histories: for a
sequence of at most 10 entries, the blob written by the save effect
parses back to a value the load effect installs verbatim, and that value
reads back as exactly the original sequence. -/
theorem persist_load_roundtrip (S : List QRHistoryItem)
    (hlen : S.length ≤ 10) :
    hydrate (StoredBlob.parsed (encodeHistory S)) = encodeHistory S ∧
    decodeHistory (encodeHistory S) = some S :=
  ⟨rfl, decodeHistory_encodeHistory S⟩

/-- Witness for C5 on a concrete two-entry history. -/
theorem persist_load_roundtrip_witness :
    hydrate (StoredBlob.parsed (encodeHistory
        [⟨"i1", "https://a.com", "#000000", "#ffffff", 5⟩,
         ⟨"i0", "https://b.com", "#111111", "#eeeeee", 3⟩])) =
      encodeHistory
        [⟨"i1", "https://a.com", "#000000", "#ffffff", 5⟩,
         ⟨"i0", "https://b.com", "#111111", "#eeeeee", 3⟩] ∧
    decodeHistory (encodeHistory
        [⟨"i1", "https://a.com", "#000000", "#ffffff", 5⟩,
         ⟨"i0", "https://b.com", "#111111", "#eeeeee", 3⟩]) =
      some [⟨"i1", "https://a.com", "#000000", "#ffffff", 5⟩,
            ⟨"i0", "https://b.com", "#111111", "#eeeeee", 3⟩] :=
  persist_load_roundtrip _ (by simp)

/-- C6: a persisted blob that fails to parse yields the empty history:
the load effect catches the error (only logging it), the installed state
is the serialized empty history, exactly as when nothing was persisted;
no failure propagates. -/
theorem corrupt_blob_empty_history :
    hydrate StoredBlob.corrupt = encodeHistory [] ∧
    hydrate StoredBlob.corrupt = hydrate StoredBlob.absent :=
  ⟨rfl, rfl⟩

/-- A syntactically well-formed persisted history that violates the
in-memory invariants: 11 entries (beyond the capacity bound of 10), the
first with a whitespace-only address and the second with an untrimmed
address. -/
def invalidHistory : List QRHistoryItem :=
  [⟨"b0", "   ", "#000000", "#ffffff", 0⟩,
   ⟨"b1", " x ", "#000000", "#ffffff", 1⟩,
   ⟨"b2", "https://e2.com", "#000000", "#ffffff", 2⟩,
   ⟨"b3", "https://e3.com", "#000000", "#ffffff", 3⟩,
   ⟨"b4", "https://e4.com", "#000000", "#ffffff", 4⟩,
   ⟨"b5", "https://e5.com", "#000000", "#ffffff", 5⟩,
   ⟨"b6", "https://e6.com", "#000000", "#ffffff", 6⟩,
   ⟨"b7", "https://e7.com", "#000000", "#ffffff", 7⟩,
   ⟨"b8", "https://e8.com", "#000000", "#ffffff", 8⟩,
   ⟨"b9", "https://e9.com", "#000000", "#ffffff", 9⟩,
   ⟨"b10", "https://e10.com", "#000000", "#ffffff", 10⟩]

/-- C9: the load effect installs any successfully parsed JSON value
verbatim — no shape or invariant validation — so a persisted blob can
hydrate to a history of more than 10 entries containing blank and
untrimmed addresses; neither the capacity bound nor the
trimmed-non-empty-address invariant is re-established at load. -/
theorem hydrate_no_validation :
    (∀ j, hydrate (StoredBlob.parsed j) = j) ∧
    hydrate (StoredBlob.parsed (encodeHistory invalidHistory)) =
      encodeHistory invalidHistory ∧
    decodeHistory (encodeHistory invalidHistory) = some invalidHistory ∧
    10 < invalidHistory.length ∧
    (∃ e ∈ invalidHistory, jsTrim e.url = "") ∧
    (∃ e ∈ invalidHistory, e.url ≠ jsTrim e.url) := by
  refine ⟨fun j => rfl, rfl, decodeHistory_encodeHistory _, by decide,
    ⟨⟨"b0", "   ", "#000000", "#ffffff", 0⟩, by decide, by decide⟩,
    ⟨⟨"b1", " x ", "#000000", "#ffffff", 1⟩, by decide, by decide⟩⟩

end QRStatic
